import Mathlib

/-! gin-todo: the in-memory todo store of `main.go`.

A shallow embedding of the `Store` type of `main.go` and of its five
operations, followed by the properties proved about them.

Modelling conventions.

* Go `int` is 64 bits wide.  Its values are the integers from `minInt` to
  `maxInt`, held in `Int`, and its arithmetic wraps around: the only
  arithmetic of the store, `s.next++`, is `wrapInt (s.next + 1)`, which takes
  `maxInt` to `minInt`.
* Go `map[int]Todo` is a finite table of `(key, value)` entries.  Reading,
  assigning and deleting a key are `mapGet`, `mapSet` and `mapDelete`.
  The iteration order of a Go map is unspecified, so every statement about
  `List` is made for an arbitrary ordering of the listing (`Store.ListResult`).
* Each method runs under `s.mu` from entry to return, so in a sequential
  execution it is one atomic state transformer; the mutex itself is not
  represented.
* A request to a route of `main` is the path parameter `id` as text and the
  body as `encoding/json` decodes it into the request struct.  `strconv.Atoi`
  and `ShouldBindJSON` belong to libraries; they follow their documentation,
  with `int` 64 bits wide.  A handler gives the answer it wrote, the store it
  leaves and the calls it made on the store.
-/

namespace GinTodo

/-- The Go struct `Todo`. -/
structure Todo where
  ID : Int
  Title : String
  Completed : Bool
deriving DecidableEq

/-- The Go struct `UpdateTodoRequest`: a nil pointer is `none`. -/
structure UpdateTodoRequest where
  Title : Option String
  Completed : Option Bool
deriving DecidableEq

/-- The zero value `Todo{}`. -/
def Todo.zero : Todo := { ID := 0, Title := "", Completed := false }

/-- Go `[]Todo`. -/
abbrev TodoSlice := List Todo

/-- Go `map[int]Todo`. -/
abbrev TodoMap := List (Int × Todo)

/-- The map read `todo, ok := m[id]` (`none` when `ok` is false). -/
def mapGet : TodoMap → Int → Option Todo
  | [], _ => none
  | (k, v) :: rest, id => if k = id then some v else mapGet rest id

/-- The builtin `delete(m, id)`. -/
def mapDelete (m : TodoMap) (id : Int) : TodoMap :=
  m.filter (fun e => decide (e.1 ≠ id))

/-- The map assignment `m[id] = t`. -/
def mapSet (m : TodoMap) (id : Int) (t : Todo) : TodoMap :=
  (id, t) :: mapDelete m id

/-- The largest Go `int` of a 64-bit build. -/
def maxInt : Int := 2 ^ 63 - 1

/-- The smallest Go `int` of a 64-bit build. -/
def minInt : Int := -(2 ^ 63)

/-- The `int` that Go arithmetic gives where the integers give `x`: the value
is taken modulo `2^64` into the range from `minInt` to `maxInt`. -/
def wrapInt (x : Int) : Int :=
  (x + 2 ^ 63) % 2 ^ 64 - 2 ^ 63

/-- The Go struct `Store` (without its mutex). -/
structure Store where
  next : Int
  todos : TodoMap
deriving DecidableEq

/-- The constructor `NewStore`. -/
def NewStore : Store := { next := 1, todos := [] }

/-- The method `Store.List`, in the order of the table. -/
def Store.List (s : Store) : TodoSlice :=
  s.todos.map (fun e => e.2)

/-- The slices `Store.List` may return: the map is ranged over in an
unspecified order. -/
def Store.ListResult (s : Store) (out : TodoSlice) : Prop :=
  out.Perm (Store.List s)

instance (s : Store) (out : TodoSlice) : Decidable (Store.ListResult s out) := by
  unfold Store.ListResult
  infer_instance

/-- The method `Store.Get`. -/
def Store.Get (s : Store) (id : Int) : Todo × Bool :=
  match mapGet s.todos id with
  | some todo => (todo, true)
  | none => (Todo.zero, false)

/-- The method `Store.Create`: the returned item and the store afterwards.
The increment `s.next++` wraps around at the largest `int`. -/
def Store.Create (s : Store) (title : String) : Todo × Store :=
  let todo : Todo := { ID := s.next, Title := title, Completed := false }
  (todo, { next := wrapInt (s.next + 1), todos := mapSet s.todos todo.ID todo })

/-- The method `Store.Update`: the returned pair and the store afterwards. -/
def Store.Update (s : Store) (id : Int) (req : UpdateTodoRequest) :
    (Todo × Bool) × Store :=
  match mapGet s.todos id with
  | none => ((Todo.zero, false), s)
  | some todo =>
    let todo1 : Todo :=
      match req.Title with
      | some title => { todo with Title := title }
      | none => todo
    let todo2 : Todo :=
      match req.Completed with
      | some completed => { todo1 with Completed := completed }
      | none => todo1
    ((todo2, true), { s with todos := mapSet s.todos id todo2 })

/-- The method `Store.Delete`: the returned flag and the store afterwards. -/
def Store.Delete (s : Store) (id : Int) : Bool × Store :=
  match mapGet s.todos id with
  | none => (false, s)
  | some _ => (true, { s with todos := mapDelete s.todos id })

/-- One call on the store. -/
inductive Op where
  | list
  | get (id : Int)
  | create (title : String)
  | update (id : Int) (req : UpdateTodoRequest)
  | delete (id : Int)
deriving DecidableEq

/-- What a call returned. -/
inductive Ret where
  | list (out : TodoSlice)
  | get (todo : Todo) (found : Bool)
  | create (todo : Todo)
  | update (todo : Todo) (found : Bool)
  | delete (found : Bool)
deriving DecidableEq

/-- One call: what it returns and the store it leaves.  `List` and `Get` only
read the store. -/
def step (s : Store) : Op → Ret × Store
  | Op.list => (Ret.list (Store.List s), s)
  | Op.get id => (Ret.get (Store.Get s id).1 (Store.Get s id).2, s)
  | Op.create title => (Ret.create (Store.Create s title).1, (Store.Create s title).2)
  | Op.update id req =>
    (Ret.update (Store.Update s id req).1.1 (Store.Update s id req).1.2,
      (Store.Update s id req).2)
  | Op.delete id => (Ret.delete (Store.Delete s id).1, (Store.Delete s id).2)

/-- A sequence of calls, one after the other: the results in call order and
the final store. -/
def run (s : Store) : List Op → List Ret × Store
  | [] => ([], s)
  | op :: ops => ((step s op).1 :: (run (step s op).2 ops).1, (run (step s op).2 ops).2)

/-- The stores a program can hold: those some sequence of calls builds from
`NewStore()`. -/
def Reachable (s : Store) : Prop :=
  ∃ ops : List Op, (run NewStore ops).2 = s

/-- The ids returned by the `Create` calls of a trace, in call order. -/
def createdIDs : List Ret → List Int
  | [] => []
  | Ret.create todo :: rest => todo.ID :: createdIDs rest
  | _ :: rest => createdIDs rest

/-- The number of `Create` calls in a sequence of calls. -/
def numCreates : List Op → Nat
  | [] => 0
  | Op.create _ :: rest => numCreates rest + 1
  | _ :: rest => numCreates rest

/-- The keys of a map. -/
def mapKeys (m : TodoMap) : List Int :=
  m.map (fun e => e.1)

/-- The data invariant of the store: keys are pairwise distinct and every
key is the `ID` of its item. -/
structure Store.Inv (s : Store) : Prop where
  nodup : (mapKeys s.todos).Nodup
  keyID : ∀ e ∈ s.todos, e.1 = e.2.ID

/-- The counter after `n` calls of `Create` since `NewStore()`, which is the
id the next call of `Create` returns: the wrapped value of `1 + n`. -/
@[irreducible]
def nthID (n : Nat) : Int :=
  wrapInt (1 + (n : Int))

/-- The store after `n` calls of `Create` since `NewStore()`: the counter is
`nthID n`, and every key was the counter before one of those calls. -/
structure Store.Counted (s : Store) (n : Nat) : Prop where
  next_eq : s.next = nthID n
  created : ∀ e ∈ s.todos, ∃ k : Nat, k < n ∧ e.1 = nthID k

/-! ## The HTTP layer -/

/-- The errors of `strconv.Atoi`: `ErrSyntax` (`notNumber`) and `ErrRange`
(`outOfRange`). -/
inductive NumError where
  | notNumber
  | outOfRange
deriving DecidableEq

/-- The number a run of decimal digits denotes, read after the digits that
gave `acc`; `none` at the first byte that is not one of `0`..`9`. -/
def digitsValue (acc : Nat) : List Char → Option Nat
  | [] => some acc
  | c :: cs =>
    if 48 ≤ c.toNat ∧ c.toNat ≤ 57 then digitsValue (acc * 10 + (c.toNat - 48)) cs
    else none

/-- The integer a text denotes in decimal, whatever its size: an optional
sign `+` or `-`, then one digit or more, and nothing else. -/
def decimalValue (s : String) : Option Int :=
  match s.toList with
  | [] => none
  | c :: cs =>
    if c = '+' then
      if cs = [] then none else (digitsValue 0 cs).map (fun n => (n : Int))
    else if c = '-' then
      if cs = [] then none else (digitsValue 0 cs).map (fun n => -(n : Int))
    else (digitsValue 0 (c :: cs)).map (fun n => (n : Int))

/-- The function `strconv.Atoi` of the Go standard library, after its
documentation: the text is read in base 10 with an optional sign; a text that
is not of that shape gives `ErrSyntax`, a value outside `int` gives
`ErrRange`.  (For a text with both faults Go reports the one it meets first;
`parseID` only tests `err != nil`.) -/
def Atoi (s : String) : Except NumError Int :=
  match decimalValue s with
  | none => Except.error NumError.notNumber
  | some v =>
    if minInt ≤ v ∧ v ≤ maxInt then Except.ok v else Except.error NumError.outOfRange

/-- The constant `http.StatusOK`. -/
def StatusOK : Nat := 200

/-- The constant `http.StatusCreated`. -/
def StatusCreated : Nat := 201

/-- The constant `http.StatusNoContent`. -/
def StatusNoContent : Nat := 204

/-- The constant `http.StatusBadRequest`. -/
def StatusBadRequest : Nat := 400

/-- The constant `http.StatusNotFound`. -/
def StatusNotFound : Nat := 404

/-- What a handler puts in the body of its answer: nothing, a one-entry
`gin.H`, an item or a slice of items (each sent as JSON). -/
inductive Body where
  | empty
  | H (key value : String)
  | todo (todo : Todo)
  | todos (out : TodoSlice)
deriving DecidableEq

/-- An answer: the status code and the body. -/
structure Response where
  status : Nat
  body : Body
deriving DecidableEq

/-- The Go struct `CreateTodoRequest`. -/
structure CreateTodoRequest where
  Title : String
deriving DecidableEq

/-- The function `parseID` on the path parameter `id`: the pair it returns
and the answer it wrote with `c.JSON`, if it wrote one. -/
def parseID (param : String) : (Int × Bool) × Option Response :=
  match Atoi param with
  | Except.error _ =>
    ((0, false), some { status := StatusBadRequest, body := Body.H "error" "invalid id" })
  | Except.ok id =>
    if id < 1 then
      ((0, false), some { status := StatusBadRequest, body := Body.H "error" "invalid id" })
    else ((id, true), none)

/-- The call `c.ShouldBindJSON(&req)` on a `CreateTodoRequest`; `none` is
`err != nil`.  The argument is what `encoding/json` made of the body: `none`
when the body does not decode, and a struct whose `Title` is still the zero
value `""` when the body has no title.  The tag `binding:"required"` then
rejects a `Title` that is the zero value. -/
def bindCreateTodoRequest (decoded : Option CreateTodoRequest) : Option CreateTodoRequest :=
  match decoded with
  | none => none
  | some req => if req.Title = "" then none else some req

/-- The call `c.ShouldBindJSON(&req)` on an `UpdateTodoRequest`, which has no
`binding` tag: it fails exactly when the body does not decode.  A field the
body leaves out stays `nil`. -/
def bindUpdateTodoRequest (decoded : Option UpdateTodoRequest) : Option UpdateTodoRequest :=
  decoded

/-- What running a handler gave: the answer written to the gin context, the
store afterwards, and the calls made on the store, in order. -/
structure Outcome where
  written : Option Response
  store : Store
  calls : List Op
deriving DecidableEq

/-- The handler of `GET /health`. -/
def healthHandler (s : Store) : Outcome :=
  { written := some { status := StatusOK, body := Body.H "status" "ok" }
    store := s
    calls := [] }

/-- The handler of `GET /todos`. -/
def listTodosHandler (s : Store) : Outcome :=
  { written := some { status := StatusOK, body := Body.todos (Store.List s) }
    store := s
    calls := [Op.list] }

/-- The handler of `POST /todos`. -/
def createTodoHandler (s : Store) (decoded : Option CreateTodoRequest) : Outcome :=
  match bindCreateTodoRequest decoded with
  | none =>
    { written := some { status := StatusBadRequest, body := Body.H "error" "title is required" }
      store := s
      calls := [] }
  | some req =>
    { written := some { status := StatusCreated, body := Body.todo (Store.Create s req.Title).1 }
      store := (Store.Create s req.Title).2
      calls := [Op.create req.Title] }

/-- The handler of `GET /todos/:id`. -/
def getTodoHandler (s : Store) (param : String) : Outcome :=
  if (parseID param).1.2 = false then
    { written := (parseID param).2, store := s, calls := [] }
  else if (Store.Get s (parseID param).1.1).2 = false then
    { written := some { status := StatusNotFound, body := Body.H "error" "todo not found" }
      store := s
      calls := [Op.get (parseID param).1.1] }
  else
    { written := some { status := StatusOK, body := Body.todo (Store.Get s (parseID param).1.1).1 }
      store := s
      calls := [Op.get (parseID param).1.1] }

/-- The handler of `PATCH /todos/:id`. -/
def patchTodoHandler (s : Store) (param : String) (decoded : Option UpdateTodoRequest) :
    Outcome :=
  if (parseID param).1.2 = false then
    { written := (parseID param).2, store := s, calls := [] }
  else
    match bindUpdateTodoRequest decoded with
    | none =>
      { written := some { status := StatusBadRequest, body := Body.H "error" "invalid payload" }
        store := s
        calls := [] }
    | some req =>
      if req.Title = none ∧ req.Completed = none then
        { written :=
            some { status := StatusBadRequest, body := Body.H "error" "no fields to update" }
          store := s
          calls := [] }
      else if (Store.Update s (parseID param).1.1 req).1.2 = false then
        { written := some { status := StatusNotFound, body := Body.H "error" "todo not found" }
          store := (Store.Update s (parseID param).1.1 req).2
          calls := [Op.update (parseID param).1.1 req] }
      else
        { written :=
            some { status := StatusOK
                   body := Body.todo (Store.Update s (parseID param).1.1 req).1.1 }
          store := (Store.Update s (parseID param).1.1 req).2
          calls := [Op.update (parseID param).1.1 req] }

/-- The handler of `DELETE /todos/:id`. -/
def deleteTodoHandler (s : Store) (param : String) : Outcome :=
  if (parseID param).1.2 = false then
    { written := (parseID param).2, store := s, calls := [] }
  else if (Store.Delete s (parseID param).1.1).1 = false then
    { written := some { status := StatusNotFound, body := Body.H "error" "todo not found" }
      store := (Store.Delete s (parseID param).1.1).2
      calls := [Op.delete (parseID param).1.1] }
  else
    { written := some { status := StatusNoContent, body := Body.empty }
      store := (Store.Delete s (parseID param).1.1).2
      calls := [Op.delete (parseID param).1.1] }

/-- A request to one of the six routes of `main`: the path parameter `id` as
text, and the body as `encoding/json` decodes it into the request struct. -/
inductive Request where
  | health
  | listTodos
  | createTodo (decoded : Option CreateTodoRequest)
  | getTodo (param : String)
  | patchTodo (param : String) (decoded : Option UpdateTodoRequest)
  | deleteTodo (param : String)
deriving DecidableEq

/-- The router of `main`: the handler of the route, run on the store. -/
def handle (s : Store) : Request → Outcome
  | Request.health => healthHandler s
  | Request.listTodos => listTodosHandler s
  | Request.createTodo decoded => createTodoHandler s decoded
  | Request.getTodo param => getTodoHandler s param
  | Request.patchTodo param decoded => patchTodoHandler s param decoded
  | Request.deleteTodo param => deleteTodoHandler s param

/-- The status code of the answer a handler wrote. -/
def Outcome.status (o : Outcome) : Option Nat :=
  o.written.map (fun r => r.status)

/-- A sequence of requests served one after the other: the answers in order
and the final store. -/
def serve (s : Store) : List Request → List (Option Response) × Store
  | [] => ([], s)
  | r :: rs => ((handle s r).written :: (serve (handle s r).store rs).1,
      (serve (handle s r).store rs).2)

/-! ## The map operations -/

theorem mapGet_eq_none_iff (m : TodoMap) (id : Int) :
    mapGet m id = none ↔ id ∉ mapKeys m := by
  induction m with
  | nil => simp [mapGet, mapKeys]
  | cons e rest ih =>
    obtain ⟨k, v⟩ := e
    by_cases h : k = id
    · simp [mapGet, mapKeys, h]
    · have h2 : ¬ id = k := fun h3 => h h3.symm
      simp only [mapKeys] at ih
      simp [mapGet, mapKeys, h, h2, ih]

theorem mem_of_mapGet {m : TodoMap} {id : Int} {t : Todo} (h : mapGet m id = some t) :
    (id, t) ∈ m := by
  induction m with
  | nil => simp [mapGet] at h
  | cons e rest ih =>
    obtain ⟨k, v⟩ := e
    by_cases hk : k = id
    · simp [mapGet, hk] at h
      simp [hk, h]
    · simp [mapGet, hk] at h
      exact List.mem_cons_of_mem _ (ih h)

theorem mapGet_of_mem {m : TodoMap} {id : Int} {t : Todo} (nd : (mapKeys m).Nodup)
    (h : (id, t) ∈ m) : mapGet m id = some t := by
  induction m with
  | nil => simp at h
  | cons e rest ih =>
    obtain ⟨k, v⟩ := e
    simp only [mapKeys, List.map_cons, List.nodup_cons, List.mem_map, not_exists, not_and] at nd
    rcases List.mem_cons.1 h with h1 | h1
    · cases h1
      simp [mapGet]
    · have hk : ¬ k = id := fun hk => nd.1 (id, t) h1 hk.symm
      simp only [mapGet, hk, if_false]
      exact ih nd.2 h1

theorem mem_mapDelete {m : TodoMap} {id : Int} {e : Int × Todo} :
    e ∈ mapDelete m id ↔ e ∈ m ∧ e.1 ≠ id := by
  simp [mapDelete]

theorem mapGet_mapDelete_self (m : TodoMap) (id : Int) :
    mapGet (mapDelete m id) id = none := by
  rw [mapGet_eq_none_iff]
  simp [mapKeys, mem_mapDelete]

theorem mapGet_mapDelete_ne (m : TodoMap) {id j : Int} (h : j ≠ id) :
    mapGet (mapDelete m id) j = mapGet m j := by
  induction m with
  | nil => rfl
  | cons e rest ih =>
    obtain ⟨k, v⟩ := e
    by_cases hk : k = id
    · have hj : ¬ k = j := fun h2 => h (h2.symm.trans hk)
      have : mapDelete ((k, v) :: rest) id = mapDelete rest id := by
        simp [mapDelete, hk]
      rw [this, ih]
      simp [mapGet, hj]
    · have : mapDelete ((k, v) :: rest) id = (k, v) :: mapDelete rest id := by
        simp [mapDelete, hk]
      rw [this]
      simp only [mapGet, ih]

theorem mapGet_mapSet_self (m : TodoMap) (id : Int) (t : Todo) :
    mapGet (mapSet m id t) id = some t := by
  simp [mapSet, mapGet]

theorem mapGet_mapSet_ne (m : TodoMap) {id j : Int} (t : Todo) (h : j ≠ id) :
    mapGet (mapSet m id t) j = mapGet m j := by
  have h2 : ¬ id = j := fun h3 => h h3.symm
  simp only [mapSet, mapGet, h2, if_false]
  exact mapGet_mapDelete_ne m h

theorem nodup_mapDelete {m : TodoMap} (id : Int) (nd : (mapKeys m).Nodup) :
    (mapKeys (mapDelete m id)).Nodup := by
  unfold mapKeys mapDelete
  exact List.Nodup.sublist (List.Sublist.map _ (List.filter_sublist m)) nd

theorem nodup_mapSet {m : TodoMap} (id : Int) (t : Todo) (nd : (mapKeys m).Nodup) :
    (mapKeys (mapSet m id t)).Nodup := by
  have h := nodup_mapDelete id nd
  have h2 := (mapGet_eq_none_iff (mapDelete m id) id).1 (mapGet_mapDelete_self m id)
  simp only [mapSet, mapKeys, List.map_cons, List.nodup_cons]
  exact ⟨h2, h⟩

theorem Store.Update_of_absent {s : Store} {id : Int} (req : UpdateTodoRequest)
    (h : mapGet s.todos id = none) :
    Store.Update s id req = ((Todo.zero, false), s) := by
  simp [Store.Update, h]

theorem Store.Update_of_present {s : Store} {id : Int} {t : Todo} (req : UpdateTodoRequest)
    (h : mapGet s.todos id = some t) :
    Store.Update s id req =
      (({ ID := t.ID, Title := req.Title.getD t.Title,
          Completed := req.Completed.getD t.Completed }, true),
        { next := s.next,
          todos := mapSet s.todos id
            { ID := t.ID, Title := req.Title.getD t.Title,
              Completed := req.Completed.getD t.Completed } }) := by
  obtain ⟨title, completed⟩ := req
  cases title <;> cases completed <;> simp [Store.Update, h]

theorem Store.Delete_of_absent {s : Store} {id : Int} (h : mapGet s.todos id = none) :
    Store.Delete s id = (false, s) := by
  simp [Store.Delete, h]

theorem Store.Delete_of_present {s : Store} {id : Int} {t : Todo}
    (h : mapGet s.todos id = some t) :
    Store.Delete s id = (true, { next := s.next, todos := mapDelete s.todos id }) := by
  simp [Store.Delete, h]

theorem Store.Get_of_absent {s : Store} {id : Int} (h : mapGet s.todos id = none) :
    Store.Get s id = (Todo.zero, false) := by
  simp [Store.Get, h]

theorem Store.Get_of_present {s : Store} {id : Int} {t : Todo}
    (h : mapGet s.todos id = some t) : Store.Get s id = (t, true) := by
  simp [Store.Get, h]

theorem Store.Get_eq_iff {s : Store} {id : Int} {t : Todo} :
    Store.Get s id = (t, true) ↔ mapGet s.todos id = some t := by
  unfold Store.Get
  cases h : mapGet s.todos id <;> simp

theorem Store.Get_found_iff {s : Store} {id : Int} :
    (Store.Get s id).2 = false ↔ mapGet s.todos id = none := by
  unfold Store.Get
  cases h : mapGet s.todos id <;> simp

/-! ## Integer wrap-around -/

theorem wrapInt_eq (x : Int) :
    wrapInt x = (x + 9223372036854775808) % 18446744073709551616 - 9223372036854775808 := by
  unfold wrapInt
  norm_num

theorem wrapInt_of_range {x : Int} (h1 : -9223372036854775808 ≤ x)
    (h2 : x ≤ 9223372036854775807) : wrapInt x = x := by
  rw [wrapInt_eq]
  omega

theorem wrapInt_range (x : Int) :
    -9223372036854775808 ≤ wrapInt x ∧ wrapInt x ≤ 9223372036854775807 := by
  rw [wrapInt_eq]
  omega

theorem nthID_eq (n : Nat) : nthID n = wrapInt (1 + (n : Int)) := by
  unfold nthID
  rfl

theorem nthID_zero : nthID 0 = 1 := by
  rw [nthID_eq]
  decide

theorem nthID_succ (n : Nat) : wrapInt (nthID n + 1) = nthID (n + 1) := by
  simp only [nthID_eq, wrapInt_eq]
  push_cast
  omega

theorem nthID_ne {k n : Nat} (h1 : k < n) (h2 : n < k + 18446744073709551616) :
    nthID k ≠ nthID n := by
  simp only [nthID_eq, wrapInt_eq]
  omega

theorem nthID_of_le {n : Nat} (h : n ≤ 9223372036854775806) : nthID n = 1 + (n : Int) := by
  simp only [nthID_eq, wrapInt_eq]
  omega

theorem Store.inv_NewStore : Store.Inv NewStore :=
  { nodup := by simp [NewStore, mapKeys]
    keyID := by simp [NewStore] }

theorem Store.inv_Create {s : Store} (title : String) (inv : Store.Inv s) :
    Store.Inv (Store.Create s title).2 :=
  { nodup := nodup_mapSet _ _ inv.nodup
    keyID := by
      intro e he
      rcases List.mem_cons.1 he with he | he
      · rw [he]
      · exact inv.keyID e (mem_mapDelete.1 he).1 }

theorem Store.inv_Update {s : Store} (id : Int) (req : UpdateTodoRequest)
    (inv : Store.Inv s) : Store.Inv (Store.Update s id req).2 := by
  cases h : mapGet s.todos id with
  | none => rw [Store.Update_of_absent req h]; exact inv
  | some t =>
    rw [Store.Update_of_present req h]
    have hmem := mem_of_mapGet h
    exact
      { nodup := nodup_mapSet _ _ inv.nodup
        keyID := by
          intro e he
          rcases List.mem_cons.1 he with he | he
          · rw [he]
            exact inv.keyID (id, t) hmem
          · exact inv.keyID e (mem_mapDelete.1 he).1 }

theorem Store.inv_Delete {s : Store} (id : Int) (inv : Store.Inv s) :
    Store.Inv (Store.Delete s id).2 := by
  cases h : mapGet s.todos id with
  | none => rw [Store.Delete_of_absent h]; exact inv
  | some t =>
    rw [Store.Delete_of_present h]
    exact
      { nodup := nodup_mapDelete _ inv.nodup
        keyID := fun e he => inv.keyID e (mem_mapDelete.1 he).1 }

theorem inv_step {s : Store} (op : Op) (inv : Store.Inv s) : Store.Inv (step s op).2 := by
  cases op with
  | list => exact inv
  | get id => exact inv
  | create title => exact Store.inv_Create title inv
  | update id req => exact Store.inv_Update id req inv
  | delete id => exact Store.inv_Delete id inv

theorem inv_run {s : Store} (ops : List Op) (inv : Store.Inv s) :
    Store.Inv (run s ops).2 := by
  induction ops generalizing s with
  | nil => exact inv
  | cons op ops ih => exact ih (inv_step op inv)

theorem Reachable.inv {s : Store} (h : Reachable s) : Store.Inv s := by
  obtain ⟨ops, rfl⟩ := h
  exact inv_run ops Store.inv_NewStore

theorem run_append (s : Store) (ops ops2 : List Op) :
    run s (ops ++ ops2) =
      ((run s ops).1 ++ (run (run s ops).2 ops2).1, (run (run s ops).2 ops2).2) := by
  induction ops generalizing s with
  | nil => rfl
  | cons op ops ih => simp [run, ih]

theorem Reachable.run {s : Store} (h : Reachable s) (ops : List Op) :
    Reachable (run s ops).2 := by
  obtain ⟨pre, rfl⟩ := h
  exact ⟨pre ++ ops, by rw [run_append]⟩

/-! ## The counter along a sequence of calls -/

theorem Store.next_Update (s : Store) (id : Int) (req : UpdateTodoRequest) :
    (Store.Update s id req).2.next = s.next := by
  cases h : mapGet s.todos id with
  | none => rw [Store.Update_of_absent req h]
  | some t => rw [Store.Update_of_present req h]

theorem Store.next_Delete (s : Store) (id : Int) :
    (Store.Delete s id).2.next = s.next := by
  cases h : mapGet s.todos id with
  | none => rw [Store.Delete_of_absent h]
  | some t => rw [Store.Delete_of_present h]

theorem numCreates_cons (op : Op) (ops : List Op) :
    numCreates (op :: ops) = numCreates [op] + numCreates ops := by
  cases op with
  | create title => simp [numCreates]; omega
  | _ => simp [numCreates]

theorem numCreates_append (ops ops2 : List Op) :
    numCreates (ops ++ ops2) = numCreates ops + numCreates ops2 := by
  induction ops with
  | nil => simp [numCreates]
  | cons op ops ih =>
    rw [List.cons_append, numCreates_cons, numCreates_cons op ops, ih]
    omega

theorem createdIDs_cons (r : Ret) (rs : List Ret) :
    createdIDs (r :: rs) = createdIDs [r] ++ createdIDs rs := by
  cases r <;> rfl

theorem Store.counted_NewStore : Store.Counted NewStore 0 :=
  { next_eq := by rw [nthID_zero]; rfl
    created := by simp [NewStore] }

theorem counted_step {s : Store} {n : Nat} (op : Op) (hc : Store.Counted s n) :
    Store.Counted (step s op).2 (n + numCreates [op]) := by
  cases op with
  | list => exact hc
  | get id => exact hc
  | create title =>
    exact
      { next_eq := by
          show wrapInt (s.next + 1) = nthID (n + 1)
          rw [hc.next_eq, nthID_succ]
        created := by
          intro e he
          have he2 : e = (s.next, { ID := s.next, Title := title, Completed := false }) ∨
              e ∈ mapDelete s.todos s.next := List.mem_cons.1 he
          show ∃ k : Nat, k < n + 1 ∧ e.1 = nthID k
          rcases he2 with he2 | he2
          · exact ⟨n, by omega, by rw [he2]; exact hc.next_eq⟩
          · obtain ⟨k, hk, hke⟩ := hc.created e (mem_mapDelete.1 he2).1
            exact ⟨k, by omega, hke⟩ }
  | update id req =>
    show Store.Counted (Store.Update s id req).2 n
    cases h : mapGet s.todos id with
    | none => rw [Store.Update_of_absent req h]; exact hc
    | some t =>
      rw [Store.Update_of_present req h]
      exact
        { next_eq := hc.next_eq
          created := by
            intro e he
            rcases List.mem_cons.1 he with he | he
            · rw [he]
              exact hc.created (id, t) (mem_of_mapGet h)
            · exact hc.created e (mem_mapDelete.1 he).1 }
  | delete id =>
    show Store.Counted (Store.Delete s id).2 n
    cases h : mapGet s.todos id with
    | none => rw [Store.Delete_of_absent h]; exact hc
    | some t =>
      rw [Store.Delete_of_present h]
      exact
        { next_eq := hc.next_eq
          created := fun e he => hc.created e (mem_mapDelete.1 he).1 }

theorem counted_run {s : Store} {n : Nat} (ops : List Op) (hc : Store.Counted s n) :
    Store.Counted (run s ops).2 (n + numCreates ops) := by
  induction ops generalizing s n with
  | nil => exact hc
  | cons op ops ih =>
    have h := ih (counted_step op hc)
    rw [numCreates_cons, ← Nat.add_assoc]
    exact h

theorem counted_run_NewStore (ops : List Op) :
    Store.Counted (run NewStore ops).2 (numCreates ops) := by
  have h := counted_run ops Store.counted_NewStore
  rw [Nat.zero_add] at h
  exact h

/-- The counter is the key of no item while fewer than `2^64` calls of
`Create` were made. -/
theorem Store.absent_next {s : Store} {n : Nat} (hc : Store.Counted s n)
    (hn : n < 18446744073709551616) : mapGet s.todos s.next = none := by
  rw [mapGet_eq_none_iff]
  intro h
  obtain ⟨e, he, hk⟩ := List.mem_map.1 h
  obtain ⟨k, hkn, hke⟩ := hc.created e he
  have hne : nthID k ≠ nthID n := nthID_ne hkn (by omega)
  apply hne
  rw [← hke, ← hc.next_eq]
  exact hk

/-- Without wrap-around, the counter is `1 + n` and every key lies in
`[1, next)`. -/
theorem Store.key_bounds {s : Store} {n : Nat} (hc : Store.Counted s n)
    (hn : n ≤ 9223372036854775806) :
    s.next = 1 + (n : Int) ∧ ∀ e ∈ s.todos, 1 ≤ e.1 ∧ e.1 < s.next := by
  have hnext : s.next = 1 + (n : Int) := by
    rw [hc.next_eq]
    exact nthID_of_le hn
  refine ⟨hnext, ?_⟩
  intro e he
  obtain ⟨k, hkn, hke⟩ := hc.created e he
  have hk : e.1 = 1 + (k : Int) := by
    rw [hke]
    exact nthID_of_le (by omega)
  omega

theorem next_step {s : Store} {n : Nat} (op : Op) (hn : s.next = nthID n) :
    (step s op).2.next = nthID (n + numCreates [op]) := by
  cases op with
  | list => exact hn
  | get id => exact hn
  | create title =>
    show wrapInt (s.next + 1) = nthID (n + 1)
    rw [hn, nthID_succ]
  | update id req =>
    show (Store.Update s id req).2.next = nthID n
    rw [Store.next_Update]
    exact hn
  | delete id =>
    show (Store.Delete s id).2.next = nthID n
    rw [Store.next_Delete]
    exact hn

theorem next_run {s : Store} {n : Nat} (ops : List Op) (hn : s.next = nthID n) :
    (run s ops).2.next = nthID (n + numCreates ops) := by
  induction ops generalizing s n with
  | nil => exact hn
  | cons op ops ih =>
    have h := ih (next_step op hn)
    rw [numCreates_cons, ← Nat.add_assoc]
    exact h

theorem createdIDs_step {s : Store} {n : Nat} (op : Op) (hn : s.next = nthID n) :
    createdIDs [(step s op).1] =
      (List.range (numCreates [op])).map (fun k : Nat => nthID (n + k)) := by
  cases op with
  | create title =>
    show [s.next] = (List.range 1).map (fun k : Nat => nthID (n + k))
    rw [hn]
    rfl
  | _ => rfl

theorem createdIDs_run {s : Store} {n : Nat} (ops : List Op) (hn : s.next = nthID n) :
    createdIDs (run s ops).1 =
      (List.range (numCreates ops)).map (fun k : Nat => nthID (n + k)) := by
  induction ops generalizing s n with
  | nil => rfl
  | cons op ops ih =>
    have h := ih (next_step op hn)
    have hpt : ∀ k ∈ List.range (numCreates ops),
        nthID (n + numCreates [op] + k) = nthID (n + (numCreates [op] + k)) := by
      intro k _
      rw [Nat.add_assoc]
    show createdIDs ((step s op).1 :: (run (step s op).2 ops).1) = _
    rw [numCreates_cons op ops, List.range_add, List.map_append, List.map_map,
      createdIDs_cons, h, createdIDs_step op hn, List.map_congr_left hpt]
    rfl

theorem createdIDs_run_mem {s : Store} {n : Nat} {i : Int} (ops : List Op)
    (hn : s.next = nthID n) (hi : i ∈ createdIDs (run s ops).1) :
    ∃ k : Nat, k < numCreates ops ∧ i = nthID (n + k) := by
  rw [createdIDs_run ops hn] at hi
  obtain ⟨k, hk, rfl⟩ := List.mem_map.1 hi
  exact ⟨k, List.mem_range.1 hk, rfl⟩

/-- A key of the store is returned by no later `Create` while at most `2^64`
calls of `Create` are made in all. -/
theorem key_not_created {s : Store} {n : Nat} {id : Int} (ops : List Op)
    (hk : ∃ k : Nat, k < n ∧ id = nthID k) (hn : s.next = nthID n)
    (hb : n + numCreates ops ≤ 18446744073709551616) :
    id ∉ createdIDs (run s ops).1 := by
  intro hmem
  obtain ⟨k, hkn, rfl⟩ := hk
  obtain ⟨m, hm, hmeq⟩ := createdIDs_run_mem ops hn hmem
  exact nthID_ne (show k < n + m by omega) (by omega) hmeq

/-! ## Absent ids -/

theorem Store.Delete_true {s : Store} {id : Int} (h : (Store.Delete s id).1 = true) :
    ∃ t, mapGet s.todos id = some t := by
  cases hg : mapGet s.todos id with
  | none => rw [Store.Delete_of_absent hg] at h; cases h
  | some t => exact ⟨t, rfl⟩

/-- After a `Delete(id)` that returned true on a store built by `pre`, no
`Create` of `later` returns `id` while `pre` and `later` hold at most `2^64`
calls of `Create`. -/
theorem freed_not_created {pre : List Op} {id : Int} (later : List Op)
    (h : (Store.Delete (run NewStore pre).2 id).1 = true)
    (hb : numCreates pre + numCreates later ≤ 18446744073709551616) :
    id ∉ createdIDs (run (Store.Delete (run NewStore pre).2 id).2 later).1 := by
  have hc := counted_run_NewStore pre
  obtain ⟨t, ht⟩ := Store.Delete_true h
  obtain ⟨k, hk, hke⟩ := hc.created (id, t) (mem_of_mapGet ht)
  have hn : (Store.Delete (run NewStore pre).2 id).2.next = nthID (numCreates pre) := by
    rw [Store.next_Delete]
    exact hc.next_eq
  exact key_not_created later ⟨k, hk, hke⟩ hn hb

/-! ## The size of the map along a sequence of calls -/

theorem numCreates_replicate (n : Nat) (title : String) :
    numCreates (List.replicate n (Op.create title)) = n := by
  induction n with
  | zero => rfl
  | succ n ih =>
    rw [List.replicate_succ, numCreates_cons, ih]
    show 1 + n = n + 1
    omega

theorem next_replicate (n : Nat) (title : String) :
    (run NewStore (List.replicate n (Op.create title))).2.next = nthID n := by
  have hn : NewStore.next = nthID 0 := by rw [nthID_zero]; rfl
  have h := next_run (List.replicate n (Op.create title)) hn
  rw [numCreates_replicate, Nat.zero_add] at h
  exact h

theorem createdIDs_replicate (n : Nat) (title : String) :
    createdIDs (run NewStore (List.replicate n (Op.create title))).1 =
      (List.range n).map nthID := by
  have hn : NewStore.next = nthID 0 := by rw [nthID_zero]; rfl
  have h := createdIDs_run (List.replicate n (Op.create title)) hn
  have hpt : ∀ k ∈ List.range n, nthID (0 + k) = nthID k := by
    intro k _
    rw [Nat.zero_add]
  rw [numCreates_replicate, List.map_congr_left hpt] at h
  exact h

theorem createdIDs_replicate_succ {n m : Nat} (h : n = m + 1) (title : String) :
    createdIDs (run NewStore (List.replicate n (Op.create title))).1 =
      createdIDs (run NewStore (List.replicate m (Op.create title))).1 ++ [nthID m] := by
  rw [createdIDs_replicate, createdIDs_replicate, h, List.range_succ, List.map_append]
  rfl

/-- A run of `Create` alone leaves every id it does not return as it was. -/
theorem mapGet_run_replicate {s : Store} {id : Int} (n : Nat) (title : String)
    (hnot : id ∉ createdIDs (run s (List.replicate n (Op.create title))).1) :
    mapGet (run s (List.replicate n (Op.create title))).2.todos id = mapGet s.todos id := by
  induction n generalizing s with
  | zero => rfl
  | succ n ih =>
    rw [List.replicate_succ] at hnot ⊢
    have hrun : createdIDs (run s (Op.create title :: List.replicate n (Op.create title))).1 =
        createdIDs [(step s (Op.create title)).1] ++
          createdIDs (run (step s (Op.create title)).2 (List.replicate n (Op.create title))).1 :=
      createdIDs_cons _ _
    rw [hrun, List.mem_append, not_or] at hnot
    have hne : id ≠ s.next := by
      intro h
      apply hnot.1
      rw [h]
      exact List.mem_singleton.2 rfl
    have h1 := ih hnot.2
    have h2 : mapGet (step s (Op.create title)).2.todos id = mapGet s.todos id :=
      mapGet_mapSet_ne _ _ hne
    rw [← h2, ← h1]
    rfl

/-- The first item of a run of at most `2^64` `Create`s is still stored at
the end. -/
theorem first_item_kept {n m : Nat} (title : String) (h : n = m + 1)
    (hm : m < 18446744073709551616) :
    mapGet (run NewStore (List.replicate n (Op.create title))).2.todos 1 =
      some { ID := 1, Title := title, Completed := false } := by
  have hn : (Store.Create NewStore title).2.next = nthID 1 := by
    rw [nthID_eq]
    rfl
  have hnot : (1 : Int) ∉
      createdIDs (run (Store.Create NewStore title).2 (List.replicate m (Op.create title))).1 := by
    intro hmem
    obtain ⟨k, hk, hke⟩ := createdIDs_run_mem _ hn hmem
    rw [numCreates_replicate] at hk
    rw [← nthID_zero] at hke
    exact nthID_ne (show 0 < 1 + k by omega) (by omega) hke
  have h1 := mapGet_run_replicate m title hnot
  have hrun : (run NewStore (List.replicate n (Op.create title))).2 =
      (run (Store.Create NewStore title).2 (List.replicate m (Op.create title))).2 := by
    rw [h, List.replicate_succ]
    rfl
  rw [hrun, h1]
  rfl

/-! ## The number of items -/

theorem mem_List_iff {s : Store} (inv : Store.Inv s) (t : Todo) :
    t ∈ Store.List s ↔ mapGet s.todos t.ID = some t := by
  unfold Store.List
  constructor
  · intro h
    obtain ⟨e, he, rfl⟩ := List.mem_map.1 h
    apply mapGet_of_mem inv.nodup
    rw [← inv.keyID e he]
    exact he
  · intro h
    exact List.mem_map.2 ⟨(t.ID, t), mem_of_mapGet h, rfl⟩

theorem ids_List_eq_keys {s : Store} (inv : Store.Inv s) :
    (Store.List s).map Todo.ID = mapKeys s.todos := by
  unfold Store.List mapKeys
  rw [List.map_map]
  apply List.map_congr_left
  intro e he
  exact (inv.keyID e he).symm

/-! ## The properties of the store -/

/-- C1 as stated fails: the first `2^63` calls of `Create` on a fresh store
return 1, 2, ... up to the largest `int`, `2^63 - 1`, and then `-2^63`,
because `s.next++` wraps around; the ids are not increasing. -/
theorem create_ids_wrap_around :
    createdIDs (run NewStore (List.replicate 9223372036854775808 (Op.create ""))).1 =
      createdIDs (run NewStore (List.replicate 9223372036854775807 (Op.create ""))).1 ++
        [-9223372036854775808] ∧
    (9223372036854775807 : Int) ∈
      createdIDs (run NewStore (List.replicate 9223372036854775807 (Op.create ""))).1 := by
  have hval : nthID 9223372036854775807 = -9223372036854775808 := by
    rw [nthID_eq]
    decide
  have hmax : nthID 9223372036854775806 = 9223372036854775807 := by
    rw [nthID_eq]
    decide
  have h := @createdIDs_replicate_succ 9223372036854775808 9223372036854775807
    (by decide) ""
  rw [hval] at h
  refine ⟨h, ?_⟩
  rw [createdIDs_replicate]
  exact List.mem_map.2 ⟨9223372036854775806, List.mem_range.2 (by decide), hmax⟩

/-- C1, amended: along every sequence of calls on a fresh store that holds at
most `2^63 - 1` calls of `Create`, the ids returned by the `Create` calls, in
call order, are strictly increasing; and while the sequence holds at most
`2^64` calls of `Create`, those ids are pairwise distinct and an id whose
`Delete` returned true is returned by no later `Create`. -/
theorem create_ids_strictly_increasing (ops : List Op) :
    (numCreates ops ≤ 9223372036854775807 →
      (createdIDs (run NewStore ops).1).Pairwise (fun a b => a < b)) ∧
    (numCreates ops ≤ 18446744073709551616 →
      (createdIDs (run NewStore ops).1).Nodup ∧
      ∀ (pre post : List Op) (id : Int), ops = pre ++ Op.delete id :: post →
        (Store.Delete (run NewStore pre).2 id).1 = true →
        id ∉ createdIDs (run (Store.Delete (run NewStore pre).2 id).2 post).1) := by
  have hn : NewStore.next = nthID 0 := by rw [nthID_zero]; rfl
  have hids := createdIDs_run ops hn
  refine ⟨?_, ?_⟩
  · intro hb
    rw [hids, List.pairwise_map]
    refine List.Pairwise.imp_of_mem ?_ (List.pairwise_lt_range (numCreates ops))
    intro a b ha hb2 hab
    have ha2 := List.mem_range.1 ha
    have hb3 := List.mem_range.1 hb2
    rw [Nat.zero_add, Nat.zero_add, nthID_of_le (show a ≤ 9223372036854775806 by omega),
      nthID_of_le (show b ≤ 9223372036854775806 by omega)]
    omega
  · intro hb
    refine ⟨?_, ?_⟩
    · rw [hids]
      unfold List.Nodup
      rw [List.pairwise_map]
      refine List.Pairwise.imp_of_mem ?_ (List.pairwise_lt_range (numCreates ops))
      intro a b ha hb2 hab
      have ha2 := List.mem_range.1 ha
      have hb3 := List.mem_range.1 hb2
      rw [Nat.zero_add, Nat.zero_add]
      exact nthID_ne hab (by omega)
    · intro pre post id hops hdel
      have hcount : numCreates ops = numCreates pre + numCreates post := by
        rw [hops, numCreates_append, numCreates_cons]
        show numCreates pre + (0 + numCreates post) = numCreates pre + numCreates post
        omega
      exact freed_not_created post hdel (by omega)

/-- C1, amended, at `Create, Delete(1), Create`: id 1, freed by the `Delete`,
is not returned by the second `Create`. -/
theorem create_ids_strictly_increasing_witness :
    (1 : Int) ∉ createdIDs
      (run (Store.Delete (run NewStore [Op.create "a"]).2 1).2 [Op.create "b"]).1 :=
  ((create_ids_strictly_increasing [Op.create "a", Op.delete 1, Op.create "b"]).2
    (by decide)).2 [Op.create "a"] [Op.create "b"] 1 rfl (by decide)

/-- C2: when `id` maps to an item `t`, `Update(id, req)` returns `(u, true)`
where `u` keeps the `ID` of `t`, takes each supplied field from `req` and each
field `req` leaves out from `t`; a request without title keeps the title, a
request without completed keeps the flag, and `Get(id)` afterwards returns
`(u, true)`.  It holds for every store, reachable or not. -/
theorem update_applies_supplied_fields (s : Store) (id : Int) (t : Todo)
    (req : UpdateTodoRequest) (h : mapGet s.todos id = some t) :
    (Store.Update s id req).1 =
      ({ ID := t.ID
         Title := match req.Title with
           | some title => title
           | none => t.Title
         Completed := match req.Completed with
           | some completed => completed
           | none => t.Completed }, true) ∧
    (req.Title = none → (Store.Update s id req).1.1.Title = t.Title) ∧
    (req.Completed = none → (Store.Update s id req).1.1.Completed = t.Completed) ∧
    Store.Get (Store.Update s id req).2 id = ((Store.Update s id req).1.1, true) := by
  rw [Store.Update_of_present req h]
  obtain ⟨title, completed⟩ := req
  refine ⟨?_, ?_, ?_, ?_⟩
  · cases title <;> cases completed <;> rfl
  · intro h1
    simp only at h1
    simp [h1]
  · intro h1
    simp only at h1
    simp [h1]
  · exact Store.Get_of_present (mapGet_mapSet_self _ _ _)

/-- C2 on the store holding item 1 "a": supplying only `completed = true`. -/
theorem update_applies_supplied_fields_witness :
    (Store.Update (Store.Create NewStore "a").2 1
        { Title := none, Completed := some true }).1 =
      ({ ID := 1, Title := "a", Completed := true }, true) :=
  (update_applies_supplied_fields (Store.Create NewStore "a").2 1
    { ID := 1, Title := "a", Completed := false }
    { Title := none, Completed := some true } rfl).1

/-- C3: when `id` is absent, `Update(id, req)` returns `(Todo{}, false)`, the
zero item being `{0, "", false}`, and the store is left as it was: same map,
same size, same counter.  It holds for every store, reachable or not. -/
theorem update_absent_is_noop (s : Store) (id : Int) (req : UpdateTodoRequest)
    (h : mapGet s.todos id = none) :
    (Store.Update s id req).1 = ({ ID := 0, Title := "", Completed := false }, false) ∧
    (Store.Update s id req).2 = s ∧
    (Store.Update s id req).2.todos = s.todos ∧
    (Store.List (Store.Update s id req).2).length = (Store.List s).length ∧
    (Store.Update s id req).2.next = s.next := by
  rw [Store.Update_of_absent req h]
  exact ⟨rfl, rfl, rfl, rfl, rfl⟩

/-- C3 on the store holding item 1 "a": an update of id 7. -/
theorem update_absent_is_noop_witness :
    (Store.Update (Store.Create NewStore "a").2 7
        { Title := some "x", Completed := some true }).2 = (Store.Create NewStore "a").2 :=
  (update_absent_is_noop (Store.Create NewStore "a").2 7
    { Title := some "x", Completed := some true } rfl).2.1

/-- C4: `Create(T)` returns `{ID: next, Title: T, Completed: false}` for
every store and every title, the empty one included, and `Get` on the
returned id then returns that item with `true`. -/
theorem create_then_get (s : Store) (title : String) :
    (Store.Create s title).1 = { ID := s.next, Title := title, Completed := false } ∧
    Store.Get (Store.Create s title).2 (Store.Create s title).1.ID =
      ((Store.Create s title).1, true) := by
  refine ⟨rfl, ?_⟩
  exact Store.Get_of_present (mapGet_mapSet_self _ _ _)

/-- C5: when `id` is present, `Delete(id)` returns true, `Get(id)` right
after it finds nothing, and a second `Delete(id)` returns false and leaves
the store of the first `Delete`. -/
theorem delete_then_delete (s : Store) (id : Int) (h : mapGet s.todos id ≠ none) :
    (Store.Delete s id).1 = true ∧
    (Store.Get (Store.Delete s id).2 id).2 = false ∧
    Store.Get (Store.Delete s id).2 id = (Todo.zero, false) ∧
    (Store.Delete (Store.Delete s id).2 id).1 = false ∧
    (Store.Delete (Store.Delete s id).2 id).2 = (Store.Delete s id).2 := by
  cases hg : mapGet s.todos id with
  | none => exact absurd hg h
  | some t =>
    rw [Store.Delete_of_present hg]
    have habs : mapGet ({ next := s.next, todos := mapDelete s.todos id } : Store).todos id
        = none := mapGet_mapDelete_self _ _
    rw [Store.Get_of_absent habs, Store.Delete_of_absent habs]
    exact ⟨rfl, rfl, rfl, rfl, rfl⟩

/-- C5 on the store holding item 1 "a". -/
theorem delete_then_delete_witness :
    (Store.Delete (Store.Create NewStore "a").2 1).1 = true ∧
    (Store.Delete (Store.Delete (Store.Create NewStore "a").2 1).2 1).1 = false :=
  ⟨(delete_then_delete (Store.Create NewStore "a").2 1 (by decide)).1,
    (delete_then_delete (Store.Create NewStore "a").2 1 (by decide)).2.2.2.1⟩

/-- C8: on a reachable store, whatever order `List()` ranges over the map,
an item `t` is in the result exactly when `Get(t.ID)` returns `(t, true)`, no
id (hence no item) occurs twice, and the call leaves the store as it was. -/
theorem list_is_the_current_items (s : Store) (hs : Reachable s) (out : TodoSlice)
    (h : Store.ListResult s out) :
    (∀ t : Todo, t ∈ out ↔ Store.Get s t.ID = (t, true)) ∧
    (out.map Todo.ID).Nodup ∧
    out.Nodup ∧
    (step s Op.list).2 = s := by
  have inv := Reachable.inv hs
  have hids : (out.map Todo.ID).Nodup := by
    rw [List.Perm.nodup_iff (List.Perm.map Todo.ID h), ids_List_eq_keys inv]
    exact inv.nodup
  refine ⟨?_, hids, List.Nodup.of_map _ hids, rfl⟩
  intro t
  rw [List.Perm.mem_iff h, mem_List_iff inv, Store.Get_eq_iff]

/-- C8 on the store after `Create "a", Create "b"`, listed newest first:
item 2 is in the listing and `Get(2)` returns it. -/
theorem list_is_the_current_items_witness :
    (({ ID := 2, Title := "b", Completed := false } : Todo) ∈
        ([{ ID := 2, Title := "b", Completed := false },
          { ID := 1, Title := "a", Completed := false }] : TodoSlice) ↔
      Store.Get (run NewStore [Op.create "a", Op.create "b"]).2 2 =
        ({ ID := 2, Title := "b", Completed := false }, true)) ∧
    (([{ ID := 2, Title := "b", Completed := false },
       { ID := 1, Title := "a", Completed := false }] : TodoSlice).map Todo.ID).Nodup :=
  ⟨(list_is_the_current_items (run NewStore [Op.create "a", Op.create "b"]).2
      ⟨[Op.create "a", Op.create "b"], rfl⟩
      [{ ID := 2, Title := "b", Completed := false },
       { ID := 1, Title := "a", Completed := false }] (by decide)).1
      { ID := 2, Title := "b", Completed := false },
    (list_is_the_current_items (run NewStore [Op.create "a", Op.create "b"]).2
      ⟨[Op.create "a", Op.create "b"], rfl⟩
      [{ ID := 2, Title := "b", Completed := false },
       { ID := 1, Title := "a", Completed := false }] (by decide)).2.1⟩

/-- C9: when `id` is absent, `Delete(id)` returns false and changes nothing:
the map and the counter are what they were.  It holds for every store,
reachable or not. -/
theorem delete_absent_is_noop (s : Store) (id : Int) (h : mapGet s.todos id = none) :
    (Store.Delete s id).1 = false ∧
    (Store.Delete s id).2.todos = s.todos ∧
    (Store.Delete s id).2.next = s.next ∧
    (Store.Delete s id).2 = s := by
  rw [Store.Delete_of_absent h]
  exact ⟨rfl, rfl, rfl, rfl⟩

/-- C9 on the store holding item 1 "a": deleting id 5. -/
theorem delete_absent_is_noop_witness :
    Store.Delete (Store.Create NewStore "a").2 5 = (false, (Store.Create NewStore "a").2) :=
  Prod.ext (delete_absent_is_noop (Store.Create NewStore "a").2 5 rfl).1
    (delete_absent_is_noop (Store.Create NewStore "a").2 5 rfl).2.2.2

/-- C10 as stated fails: after `2^63 - 1` calls of `Create` on a fresh store
the counter is `-2^63`, not 1 plus the number of `Create` calls: the last
increment started from the largest `int` and wrapped around. -/
theorem counter_wraps_around :
    (run NewStore (List.replicate 9223372036854775807 (Op.create ""))).2.next =
      -9223372036854775808 ∧
    numCreates (List.replicate 9223372036854775807 (Op.create "")) = 9223372036854775807 := by
  have hval : nthID 9223372036854775807 = -9223372036854775808 := by
    rw [nthID_eq]
    decide
  rw [next_replicate, numCreates_replicate, hval]
  exact ⟨rfl, rfl⟩

/-- C10, amended: the counter of `NewStore()` is 1; along every sequence of
calls on a fresh store the `Create` calls return 1, 2, 3, ... in call order
while there are at most `2^63 - 1` of them, and the counter ends at 1 plus
the number of `Create` calls while there are at most `2^63 - 2` of them;
`Create` adds exactly one to a counter below the largest `int` and takes the
largest `int` to the smallest; `Get`, `List`, `Update` and `Delete` leave the
counter alone. -/
theorem counter_counts_creates (ops : List Op) :
    NewStore.next = 1 ∧
    (numCreates ops ≤ 9223372036854775807 →
      createdIDs (run NewStore ops).1 =
        (List.range (numCreates ops)).map (fun k : Nat => (k : Int) + 1)) ∧
    (numCreates ops ≤ 9223372036854775806 →
      (run NewStore ops).2.next = 1 + (numCreates ops : Int)) ∧
    (∀ (s : Store) (title : String), -9223372036854775808 ≤ s.next →
      s.next < 9223372036854775807 → (step s (Op.create title)).2.next = s.next + 1) ∧
    (∀ (s : Store) (title : String), s.next = 9223372036854775807 →
      (step s (Op.create title)).2.next = -9223372036854775808) ∧
    (∀ (s : Store) (id : Int), (step s (Op.get id)).2.next = s.next) ∧
    (∀ s : Store, (step s Op.list).2.next = s.next) ∧
    (∀ (s : Store) (id : Int) (req : UpdateTodoRequest),
      (step s (Op.update id req)).2.next = s.next) ∧
    (∀ (s : Store) (id : Int), (step s (Op.delete id)).2.next = s.next) := by
  have hn : NewStore.next = nthID 0 := by rw [nthID_zero]; rfl
  refine ⟨rfl, ?_, ?_, ?_, ?_, fun _ _ => rfl, fun _ => rfl, ?_, ?_⟩
  · intro hb
    rw [createdIDs_run ops hn]
    apply List.map_congr_left
    intro k hk
    have hk2 := List.mem_range.1 hk
    rw [Nat.zero_add, nthID_of_le (show k ≤ 9223372036854775806 by omega)]
    omega
  · intro hb
    have h := next_run ops hn
    rw [Nat.zero_add, nthID_of_le hb] at h
    exact h
  · intro s title h1 h2
    have h : (step s (Op.create title)).2.next = wrapInt (s.next + 1) := rfl
    rw [h]
    exact wrapInt_of_range (by omega) (by omega)
  · intro s title h1
    have h : (step s (Op.create title)).2.next = wrapInt (s.next + 1) := rfl
    rw [h, h1]
    decide
  · intro s id req
    exact Store.next_Update s id req
  · intro s id
    exact Store.next_Delete s id

/-- C10, amended, at `Create, Get(1), Create`: the two `Create`s return 1 and
2 and the counter ends at 3. -/
theorem counter_counts_creates_witness :
    createdIDs (run NewStore [Op.create "a", Op.get 1, Op.create "b"]).1 =
      (List.range (numCreates [Op.create "a", Op.get 1, Op.create "b"])).map
        (fun k : Nat => (k : Int) + 1) ∧
    (run NewStore [Op.create "a", Op.get 1, Op.create "b"]).2.next =
      1 + (numCreates [Op.create "a", Op.get 1, Op.create "b"] : Int) :=
  ⟨(counter_counts_creates [Op.create "a", Op.get 1, Op.create "b"]).2.1 (by decide),
    (counter_counts_creates [Op.create "a", Op.get 1, Op.create "b"]).2.2.1 (by decide)⟩

/-! ## The path parameter -/

theorem parseID_of_value {param : String} {n : Int} (hv : decimalValue param = some n)
    (h1 : 1 ≤ n) (h2 : n ≤ maxInt) : parseID param = ((n, true), none) := by
  have hmin : minInt ≤ n := by
    unfold minInt
    omega
  have hlt : ¬ n < 1 := by omega
  simp [parseID, Atoi, hv, hmin, h2, hlt]

theorem parseID_rejects {param : String}
    (h : ¬ ∃ n : Int, decimalValue param = some n ∧ 1 ≤ n ∧ n ≤ maxInt) :
    parseID param =
      ((0, false), some { status := 400, body := Body.H "error" "invalid id" }) := by
  unfold parseID Atoi
  cases hv : decimalValue param with
  | none => rfl
  | some v =>
    by_cases hr : minInt ≤ v ∧ v ≤ maxInt
    · have hlt : v < 1 := by
        by_contra hge
        exact h ⟨v, hv, by omega, hr.2⟩
      simp [hr, hlt, StatusBadRequest]
    · simp [hr, StatusBadRequest]

theorem parseID_cases (param : String) :
    (∃ n : Int, decimalValue param = some n ∧ 1 ≤ n ∧ n ≤ maxInt ∧
      parseID param = ((n, true), none)) ∨
    ((¬ ∃ n : Int, decimalValue param = some n ∧ 1 ≤ n ∧ n ≤ maxInt) ∧
      parseID param =
        ((0, false), some { status := 400, body := Body.H "error" "invalid id" })) := by
  by_cases h : ∃ n : Int, decimalValue param = some n ∧ 1 ≤ n ∧ n ≤ maxInt
  · obtain ⟨n, hv, h1, h2⟩ := h
    exact Or.inl ⟨n, hv, h1, h2, parseID_of_value hv h1 h2⟩
  · exact Or.inr ⟨h, parseID_rejects h⟩

theorem parseID_accepts_iff (param : String) (n : Int) :
    parseID param = ((n, true), none) ↔
      decimalValue param = some n ∧ 1 ≤ n ∧ n ≤ maxInt := by
  constructor
  · intro h
    rcases parseID_cases param with ⟨m, hv, h1, h2, hp⟩ | ⟨_, hp⟩
    · rw [hp] at h
      have hmn : m = n := by
        have := congrArg (fun x => x.1.1) h
        simpa using this
      subst hmn
      exact ⟨hv, h1, h2⟩
    · rw [hp] at h
      have := congrArg (fun x => x.1.2) h
      simp at this
  · rintro ⟨hv, h1, h2⟩
    exact parseID_of_value hv h1 h2

theorem getTodoHandler_of_rejected {param : String} (s : Store)
    (h : (parseID param).1.2 = false) :
    getTodoHandler s param = { written := (parseID param).2, store := s, calls := [] } := by
  simp [getTodoHandler, h]

theorem patchTodoHandler_of_rejected {param : String} (s : Store)
    (decoded : Option UpdateTodoRequest) (h : (parseID param).1.2 = false) :
    patchTodoHandler s param decoded =
      { written := (parseID param).2, store := s, calls := [] } := by
  simp [patchTodoHandler, h]

theorem deleteTodoHandler_of_rejected {param : String} (s : Store)
    (h : (parseID param).1.2 = false) :
    deleteTodoHandler s param = { written := (parseID param).2, store := s, calls := [] } := by
  simp [deleteTodoHandler, h]

/-- The store a handler leaves is the store its calls build. -/
theorem handle_store_eq_run (s : Store) (r : Request) :
    (handle s r).store = (run s (handle s r).calls).2 := by
  cases r with
  | health => rfl
  | listTodos => rfl
  | createTodo decoded =>
    simp only [handle, createTodoHandler]
    cases bindCreateTodoRequest decoded <;> rfl
  | getTodo param =>
    simp only [handle, getTodoHandler]
    split
    · rfl
    · split <;> rfl
  | patchTodo param decoded =>
    simp only [handle, patchTodoHandler]
    split
    · rfl
    · cases bindUpdateTodoRequest decoded with
      | none => rfl
      | some req =>
        simp only
        split
        · rfl
        · split <;> rfl
  | deleteTodo param =>
    simp only [handle, deleteTodoHandler]
    split
    · rfl
    · split <;> rfl

/-! ## The properties of the HTTP layer -/

/-- C11 as stated fails: the parameter `9223372036854775808` reads as the
integer 2^63, which is at least 1, yet `parseID` returns `(0, false)` and
answers 400, because `strconv.Atoi` reports a value outside `int`. -/
theorem parseID_rejects_integer_above_int :
    decimalValue "9223372036854775808" = some 9223372036854775808 ∧
    (1 : Int) ≤ 9223372036854775808 ∧
    parseID "9223372036854775808" =
      ((0, false), some { status := 400, body := Body.H "error" "invalid id" }) := by
  decide

/-- C11, amended: `parseID` accepts the path parameter exactly when it reads
as an integer that is at least 1 and at most the largest `int` (2^63 - 1); it
then returns that integer with `true` and writes nothing.  In every other
case it returns `(0, false)` and answers 400 with the error "invalid id", and
the handlers of GET, PATCH and DELETE `/todos/:id` return that answer, leave
the store as it was and make no call on it. -/
theorem parseID_accepts_iff_positive_int (param : String) :
    maxInt = 9223372036854775807 ∧
    (∀ n : Int, parseID param = ((n, true), none) ↔
      decimalValue param = some n ∧ 1 ≤ n ∧ n ≤ maxInt) ∧
    ((¬ ∃ n : Int, decimalValue param = some n ∧ 1 ≤ n ∧ n ≤ maxInt) →
      parseID param =
        ((0, false), some { status := 400, body := Body.H "error" "invalid id" }) ∧
      ∀ (s : Store) (decoded : Option UpdateTodoRequest),
        handle s (Request.getTodo param) =
          { written := some { status := 400, body := Body.H "error" "invalid id" }
            store := s
            calls := [] } ∧
        handle s (Request.patchTodo param decoded) =
          { written := some { status := 400, body := Body.H "error" "invalid id" }
            store := s
            calls := [] } ∧
        handle s (Request.deleteTodo param) =
          { written := some { status := 400, body := Body.H "error" "invalid id" }
            store := s
            calls := [] }) := by
  refine ⟨by decide, fun n => parseID_accepts_iff param n, ?_⟩
  intro h
  have hp := parseID_rejects h
  have hok : (parseID param).1.2 = false := by rw [hp]
  refine ⟨hp, fun s decoded => ⟨?_, ?_, ?_⟩⟩
  · simp only [handle]
    rw [getTodoHandler_of_rejected s hok, hp]
  · simp only [handle]
    rw [patchTodoHandler_of_rejected s decoded hok, hp]
  · simp only [handle]
    rw [deleteTodoHandler_of_rejected s hok, hp]

/-- C11, amended, at the parameters `2` (accepted) and `0` (rejected). -/
theorem parseID_accepts_iff_positive_int_witness :
    parseID "2" = ((2, true), none) ∧
    parseID "0" = ((0, false), some { status := 400, body := Body.H "error" "invalid id" }) :=
  ⟨((parseID_accepts_iff_positive_int "2").2.1 2).2 (by decide),
    ((parseID_accepts_iff_positive_int "0").2.2 (by
      rintro ⟨n, hv, h1, _⟩
      have h0 : decimalValue "0" = some 0 := by decide
      rw [h0] at hv
      cases hv
      omega)).1⟩

/-- C12: the answer of `PATCH /todos/:id`.  It is 400 exactly when the id is
invalid, or the body does not decode, or the body gives neither title nor
completed (whatever the store holds), and then no call is made on the store;
it is 404 exactly when the id is valid, the body decodes and gives a field,
and the id is absent from the store, which is then left as it was; in the
remaining case, a valid id that is present and a body that gives a field, it
is 200 with the item `Store.Update` returned, which is then the item stored
under the id.  Each of the five cases is given with its whole outcome: the
answer, the store and the calls made on the store. -/
theorem patch_answers (s : Store) (param : String) (decoded : Option UpdateTodoRequest) :
    ((handle s (Request.patchTodo param decoded)).status = some 400 ↔
      (parseID param).1.2 = false ∨ decoded = none ∨
        decoded = some { Title := none, Completed := none }) ∧
    ((handle s (Request.patchTodo param decoded)).status = some 400 →
      (handle s (Request.patchTodo param decoded)).store = s ∧
      (handle s (Request.patchTodo param decoded)).calls = []) ∧
    ((handle s (Request.patchTodo param decoded)).status = some 404 ↔
      (parseID param).1.2 = true ∧
      ∃ req : UpdateTodoRequest, decoded = some req ∧
        ¬ (req.Title = none ∧ req.Completed = none) ∧
        mapGet s.todos (parseID param).1.1 = none) ∧
    ((handle s (Request.patchTodo param decoded)).status = some 404 →
      (handle s (Request.patchTodo param decoded)).store = s) ∧
    ((parseID param).1.2 = false →
      handle s (Request.patchTodo param decoded) =
        { written := some { status := 400, body := Body.H "error" "invalid id" }
          store := s
          calls := [] }) ∧
    ((parseID param).1.2 = true → decoded = none →
      handle s (Request.patchTodo param decoded) =
        { written := some { status := 400, body := Body.H "error" "invalid payload" }
          store := s
          calls := [] }) ∧
    ((parseID param).1.2 = true → decoded = some { Title := none, Completed := none } →
      handle s (Request.patchTodo param decoded) =
        { written := some { status := 400, body := Body.H "error" "no fields to update" }
          store := s
          calls := [] }) ∧
    (∀ req : UpdateTodoRequest,
      (parseID param).1.2 = true → decoded = some req →
      ¬ (req.Title = none ∧ req.Completed = none) →
      mapGet s.todos (parseID param).1.1 = none →
        handle s (Request.patchTodo param decoded) =
          { written := some { status := 404, body := Body.H "error" "todo not found" }
            store := s
            calls := [Op.update (parseID param).1.1 req] }) ∧
    (∀ (req : UpdateTodoRequest) (t : Todo),
      (parseID param).1.2 = true → decoded = some req →
      ¬ (req.Title = none ∧ req.Completed = none) →
      mapGet s.todos (parseID param).1.1 = some t →
        handle s (Request.patchTodo param decoded) =
          { written := some
              { status := 200
                body := Body.todo (Store.Update s (parseID param).1.1 req).1.1 }
            store := (Store.Update s (parseID param).1.1 req).2
            calls := [Op.update (parseID param).1.1 req] } ∧
        Store.Get (Store.Update s (parseID param).1.1 req).2 (parseID param).1.1 =
          ((Store.Update s (parseID param).1.1 req).1.1, true)) := by
  rcases parseID_cases param with ⟨n, _, _, _, hp⟩ | ⟨_, hp⟩
  · -- a valid id
    cases decoded with
    | none =>
      simp [handle, patchTodoHandler, hp, Outcome.status, bindUpdateTodoRequest,
        StatusBadRequest]
    | some req =>
      by_cases hreq : req.Title = none ∧ req.Completed = none
      · obtain ⟨title, completed⟩ := req
        simp only at hreq
        simp [handle, patchTodoHandler, hp, Outcome.status, bindUpdateTodoRequest,
          StatusBadRequest, hreq]
        intro req t h1 h2
        subst h1
        exact absurd rfl (h2 rfl)
      · have hne : ¬ req = { Title := none, Completed := none } := by
          intro h
          rw [h] at hreq
          simp at hreq
        have himp : req.Title = none → ¬ req.Completed = none := fun a b => hreq ⟨a, b⟩
        cases hg : mapGet s.todos n with
        | none =>
          simp [handle, patchTodoHandler, hp, Outcome.status, bindUpdateTodoRequest,
            StatusNotFound, hreq, Store.Update_of_absent req hg, hg, hne]
          exact himp
        | some t =>
          have hget : Store.Get (Store.Update s n req).2 n =
              ((Store.Update s n req).1.1, true) := by
            rw [Store.Update_of_present req hg]
            exact Store.Get_of_present (mapGet_mapSet_self _ _ _)
          have hfound : (Store.Update s n req).1.2 = true := by
            rw [Store.Update_of_present req hg]
          simp [handle, patchTodoHandler, hp, Outcome.status, bindUpdateTodoRequest,
            StatusOK, hreq, hg, hfound, hget, hne]
  · -- an invalid id
    simp [handle, patchTodoHandler, hp, Outcome.status]

/-- C12 on the store holding item 1 "a": a title for the unknown id 7 is
answered 404, and `completed = true` for id 1 is answered 200 with the
updated item. -/
theorem patch_answers_witness :
    (handle (Store.Create NewStore "a").2
        (Request.patchTodo "7" (some { Title := some "x", Completed := none }))).status
      = some 404 ∧
    (handle (Store.Create NewStore "a").2
        (Request.patchTodo "1" (some { Title := none, Completed := some true }))).written
      = some { status := 200
               body := Body.todo { ID := 1, Title := "a", Completed := true } } :=
  ⟨(patch_answers (Store.Create NewStore "a").2 "7"
      (some { Title := some "x", Completed := none })).2.2.1.2
      ⟨by decide, { Title := some "x", Completed := none }, rfl, by decide, by decide⟩,
    congrArg Outcome.written
      ((patch_answers (Store.Create NewStore "a").2 "1"
        (some { Title := none, Completed := some true })).2.2.2.2.2.2.2.2
        { Title := none, Completed := some true }
        { ID := 1, Title := "a", Completed := false }
        (by decide) rfl (by decide) (by decide)).1⟩

theorem handle_status_cases (s : Store) (r : Request) :
    ((handle s r).status = some 400 ∧ (handle s r).calls = [] ∧ (handle s r).store = s) ∨
    ((handle s r).status = some 404 ∧ (handle s r).store = s) ∨
    ((handle s r).status ≠ some 400 ∧ (handle s r).status ≠ some 404) := by
  cases r with
  | health => exact Or.inr (Or.inr (by simp [handle, healthHandler, Outcome.status, StatusOK]))
  | listTodos =>
    exact Or.inr (Or.inr (by simp [handle, listTodosHandler, Outcome.status, StatusOK]))
  | createTodo decoded =>
    simp only [handle, createTodoHandler]
    cases bindCreateTodoRequest decoded with
    | none => exact Or.inl ⟨rfl, rfl, rfl⟩
    | some req => exact Or.inr (Or.inr (by simp [Outcome.status, StatusCreated]))
  | getTodo param =>
    rcases parseID_cases param with ⟨n, _, _, _, hp⟩ | ⟨_, hp⟩
    · by_cases hg : (Store.Get s n).2 = false
      · exact Or.inr (Or.inl (by
          simp [handle, getTodoHandler, hp, hg, Outcome.status, StatusNotFound]))
      · exact Or.inr (Or.inr (by
          simp [handle, getTodoHandler, hp, hg, Outcome.status, StatusOK]))
    · exact Or.inl (by simp [handle, getTodoHandler, hp, Outcome.status])
  | patchTodo param decoded =>
    rcases parseID_cases param with ⟨n, _, _, _, hp⟩ | ⟨_, hp⟩
    · cases decoded with
      | none =>
        exact Or.inl (by
          simp [handle, patchTodoHandler, hp, bindUpdateTodoRequest, Outcome.status,
            StatusBadRequest])
      | some req =>
        by_cases hreq : req.Title = none ∧ req.Completed = none
        · exact Or.inl (by
            simp [handle, patchTodoHandler, hp, bindUpdateTodoRequest, Outcome.status,
              StatusBadRequest, hreq])
        · cases hg : mapGet s.todos n with
          | none =>
            exact Or.inr (Or.inl (by
              simp [handle, patchTodoHandler, hp, bindUpdateTodoRequest, Outcome.status,
                StatusNotFound, hreq, Store.Update_of_absent req hg]))
          | some t =>
            have hfound : (Store.Update s n req).1.2 = true := by
              rw [Store.Update_of_present req hg]
            exact Or.inr (Or.inr (by
              simp [handle, patchTodoHandler, hp, bindUpdateTodoRequest, Outcome.status,
                StatusOK, hreq, hfound]))
    · exact Or.inl (by simp [handle, patchTodoHandler, hp, Outcome.status])
  | deleteTodo param =>
    rcases parseID_cases param with ⟨n, _, _, _, hp⟩ | ⟨_, hp⟩
    · cases hg : mapGet s.todos n with
      | none =>
        exact Or.inr (Or.inl (by
          simp [handle, deleteTodoHandler, hp, Outcome.status, StatusNotFound,
            Store.Delete_of_absent hg]))
      | some t =>
        exact Or.inr (Or.inr (by
          simp [handle, deleteTodoHandler, hp, Outcome.status, StatusNoContent,
            Store.Delete_of_present hg]))
    · exact Or.inl (by simp [handle, deleteTodoHandler, hp, Outcome.status])

/-- C14: a request answered 400 or 404 leaves the store exactly as it was,
map and counter; and a request answered 400 was rejected before any call on
the store.  It holds for every store, reachable or not, and every request to
a route of `main`. -/
theorem rejected_request_leaves_store (s : Store) (r : Request)
    (h : (handle s r).status = some 400 ∨ (handle s r).status = some 404) :
    (handle s r).store = s ∧
    (handle s r).store.todos = s.todos ∧
    (handle s r).store.next = s.next ∧
    ((handle s r).status = some 400 → (handle s r).calls = []) := by
  rcases handle_status_cases s r with ⟨h400, hcalls, hs⟩ | ⟨h404, hs⟩ | ⟨n400, n404⟩
  · exact ⟨hs, by rw [hs], by rw [hs], fun _ => hcalls⟩
  · refine ⟨hs, by rw [hs], by rw [hs], fun h400 => ?_⟩
    rw [h404] at h400
    cases h400
  · rcases h with h | h
    · exact absurd h n400
    · exact absurd h n404

/-- C14 on the store holding item 1 "a": a POST without title, answered 400,
and a DELETE of the unknown id 9, answered 404, leave the store alone. -/
theorem rejected_request_leaves_store_witness :
    (handle (Store.Create NewStore "a").2 (Request.createTodo (some { Title := "" }))).store
      = (Store.Create NewStore "a").2 ∧
    (handle (Store.Create NewStore "a").2 (Request.deleteTodo "9")).store
      = (Store.Create NewStore "a").2 :=
  ⟨(rejected_request_leaves_store (Store.Create NewStore "a").2
      (Request.createTodo (some { Title := "" })) (Or.inl (by decide))).1,
    (rejected_request_leaves_store (Store.Create NewStore "a").2
      (Request.deleteTodo "9") (Or.inr (by decide))).1⟩

/-- C15: on a fresh store, POST with title "buy milk", PATCH `/todos/1` with
only `completed = true`, GET `/todos/2`, DELETE `/todos/1`, GET `/todos/1`
are answered 201 with item 1, 200 with item 1 completed, 404, 204 without
body, and 404; the store ends empty with its counter at 2. -/
theorem end_to_end_buy_milk :
    serve NewStore
      [Request.createTodo (some { Title := "buy milk" }),
       Request.patchTodo "1" (some { Title := none, Completed := some true }),
       Request.getTodo "2",
       Request.deleteTodo "1",
       Request.getTodo "1"] =
      ([some { status := 201
               body := Body.todo { ID := 1, Title := "buy milk", Completed := false } },
        some { status := 200
               body := Body.todo { ID := 1, Title := "buy milk", Completed := true } },
        some { status := 404, body := Body.H "error" "todo not found" },
        some { status := 204, body := Body.empty },
        some { status := 404, body := Body.H "error" "todo not found" }],
       { next := 2, todos := [] }) := by
  decide

/-! ## Invariants and frame of the store -/

/-- C17: in every store some sequence of calls builds from `NewStore()`, each
key of the map is the `ID` of the item under it; and `Update` returns and
stores an item with the `ID` of the item it found. -/
theorem key_is_item_id (ops : List Op) :
    (∀ e ∈ (run NewStore ops).2.todos, e.1 = e.2.ID) ∧
    (∀ (id : Int) (t : Todo), mapGet (run NewStore ops).2.todos id = some t → t.ID = id) ∧
    (∀ (s : Store) (id : Int) (req : UpdateTodoRequest) (t : Todo),
      mapGet s.todos id = some t →
        (Store.Update s id req).1.1.ID = t.ID ∧
        ∃ u : Todo, mapGet (Store.Update s id req).2.todos id = some u ∧ u.ID = t.ID) := by
  have inv := inv_run ops Store.inv_NewStore
  refine ⟨inv.keyID, ?_, ?_⟩
  · intro id t h
    exact (inv.keyID (id, t) (mem_of_mapGet h)).symm
  · intro s id req t h
    rw [Store.Update_of_present req h]
    exact ⟨rfl, _, mapGet_mapSet_self _ _ _, rfl⟩

/-- C17 after `Create "a", Create "b", Update(2, title "c")`: key 2 holds the
item "c", whose `ID` is 2. -/
theorem key_is_item_id_witness :
    mapGet
      (run NewStore
        [Op.create "a", Op.create "b",
          Op.update 2 { Title := some "c", Completed := none }]).2.todos 2 =
      some { ID := 2, Title := "c", Completed := false } ∧
    ({ ID := 2, Title := "c", Completed := false } : Todo).ID = 2 :=
  ⟨by decide,
    (key_is_item_id
      [Op.create "a", Op.create "b",
        Op.update 2 { Title := some "c", Completed := none }]).2.1
      2 { ID := 2, Title := "c", Completed := false } (by decide)⟩

/-- C18 as stated fails: after `2^63 - 1` calls of `Create` on a fresh store
the counter has wrapped around to `-2^63`, while id 1 was returned by the
first `Create` and is still a key of the map: that id is not below the
counter. -/
theorem first_id_not_below_counter :
    (1 : Int) ∈
      createdIDs (run NewStore (List.replicate 9223372036854775807 (Op.create ""))).1 ∧
    mapGet (run NewStore (List.replicate 9223372036854775807 (Op.create ""))).2.todos 1 =
      some { ID := 1, Title := "", Completed := false } ∧
    (run NewStore (List.replicate 9223372036854775807 (Op.create ""))).2.next =
      -9223372036854775808 := by
  have hval : nthID 9223372036854775807 = -9223372036854775808 := by
    rw [nthID_eq]
    decide
  refine ⟨?_, ?_, ?_⟩
  · rw [createdIDs_replicate]
    exact List.mem_map.2 ⟨0, List.mem_range.2 (by decide), nthID_zero⟩
  · exact @first_item_kept 9223372036854775807 9223372036854775806 "" (by decide) (by decide)
  · rw [next_replicate, hval]

/-- C18, amended: in every store a sequence of calls with at most `2^63 - 2`
calls of `Create` builds from `NewStore()`, each key of the map, each `ID`
stored and each id a `Create` of the sequence returned is at least 1 and
below the counter; and while the sequence holds fewer than `2^64` calls of
`Create`, the counter is the key of no item and `Create` keeps every item the
store holds. -/
theorem ids_between_one_and_next (ops : List Op) :
    (numCreates ops ≤ 9223372036854775806 →
      (∀ e ∈ (run NewStore ops).2.todos,
        1 ≤ e.1 ∧ e.1 < (run NewStore ops).2.next ∧
        1 ≤ e.2.ID ∧ e.2.ID < (run NewStore ops).2.next) ∧
      (∀ i ∈ createdIDs (run NewStore ops).1, 1 ≤ i ∧ i < (run NewStore ops).2.next)) ∧
    (numCreates ops < 18446744073709551616 →
      mapGet (run NewStore ops).2.todos (run NewStore ops).2.next = none ∧
      (∀ (title : String) (id : Int) (t : Todo),
        mapGet (run NewStore ops).2.todos id = some t →
          mapGet (Store.Create (run NewStore ops).2 title).2.todos id = some t)) := by
  have inv := inv_run ops Store.inv_NewStore
  have hc := counted_run_NewStore ops
  have hn : NewStore.next = nthID 0 := by rw [nthID_zero]; rfl
  refine ⟨?_, ?_⟩
  · intro hb
    have hkb := Store.key_bounds hc hb
    refine ⟨?_, ?_⟩
    · intro e he
      have hbound := hkb.2 e he
      have hk := inv.keyID e he
      rw [← hk]
      exact ⟨hbound.1, hbound.2, hbound.1, hbound.2⟩
    · intro i hi
      obtain ⟨k, hk, hke⟩ := createdIDs_run_mem ops hn hi
      rw [Nat.zero_add, nthID_of_le (show k ≤ 9223372036854775806 by omega)] at hke
      rw [hkb.1]
      omega
  · intro hb
    have habs := Store.absent_next hc hb
    refine ⟨habs, ?_⟩
    intro title id t h
    have hne : id ≠ (run NewStore ops).2.next := by
      intro heq
      rw [heq, habs] at h
      cases h
    have h2 : mapGet (Store.Create (run NewStore ops).2 title).2.todos id =
        mapGet (run NewStore ops).2.todos id := mapGet_mapSet_ne _ _ hne
    rw [h2]
    exact h

/-- C18, amended, after `Create "a", Delete(1), Create "b"`: the store holds
key 2, which lies in `[1, next)`. -/
theorem ids_between_one_and_next_witness :
    ((2, { ID := 2, Title := "b", Completed := false }) : Int × Todo) ∈
      (run NewStore [Op.create "a", Op.delete 1, Op.create "b"]).2.todos ∧
    (1 : Int) ≤ 2 ∧
    (2 : Int) < (run NewStore [Op.create "a", Op.delete 1, Op.create "b"]).2.next :=
  ⟨by decide,
    (((ids_between_one_and_next [Op.create "a", Op.delete 1, Op.create "b"]).1
      (by decide)).1
      (2, { ID := 2, Title := "b", Completed := false }) (by decide)).1,
    (((ids_between_one_and_next [Op.create "a", Op.delete 1, Op.create "b"]).1
      (by decide)).1
      (2, { ID := 2, Title := "b", Completed := false }) (by decide)).2.1⟩

/-- C19: `Update(id, req)` and `Delete(id)` leave what `Get(j)` returns for
every other id `j`, and `Create` leaves it for every `j` other than the id it
returns.  It holds for every store, reachable or not. -/
theorem other_items_untouched (s : Store) (id j : Int) :
    (j ≠ id → ∀ req : UpdateTodoRequest,
      Store.Get (Store.Update s id req).2 j = Store.Get s j) ∧
    (j ≠ id → Store.Get (Store.Delete s id).2 j = Store.Get s j) ∧
    (∀ title : String, j ≠ (Store.Create s title).1.ID →
      Store.Get (Store.Create s title).2 j = Store.Get s j) := by
  refine ⟨?_, ?_, ?_⟩
  · intro hne req
    cases h : mapGet s.todos id with
    | none => rw [Store.Update_of_absent req h]
    | some t =>
      rw [Store.Update_of_present req h]
      simp only [Store.Get]
      rw [mapGet_mapSet_ne _ _ hne]
  · intro hne
    cases h : mapGet s.todos id with
    | none => rw [Store.Delete_of_absent h]
    | some t =>
      rw [Store.Delete_of_present h]
      simp only [Store.Get]
      rw [mapGet_mapDelete_ne _ hne]
  · intro title hne
    simp only [Store.Create] at hne
    simp only [Store.Get, Store.Create]
    rw [mapGet_mapSet_ne _ _ hne]

/-- C19 on the store holding items 1 "a" and 2 "b": deleting 1 leaves what
`Get(2)` returns. -/
theorem other_items_untouched_witness :
    Store.Get (Store.Delete (run NewStore [Op.create "a", Op.create "b"]).2 1).2 2 =
      Store.Get (run NewStore [Op.create "a", Op.create "b"]).2 2 :=
  (other_items_untouched (run NewStore [Op.create "a", Op.create "b"]).2 1 2).2.1
    (by decide)

end GinTodo
